import Mathlib

/-!
Shallow embedding of `src/main.rs` of the todoish repository: the in-memory
data model (`Item`, `List` — here `TodoList` to avoid clashing with the
builtin Lean list type — and the `Todoish` app state), the mutations performed by
`Todoish::update` on user intents, the autosave policy at the end of
`Todoish::update`, and the serde-JSON persistence used by `Todoish::new`
and the background save thread.

Conventions of the embedding:
* Rust `String` is Lean `String`; `str::trim` is `strTrim` below, a structural
  model of whitespace trimming over the character list (the builtin
  `String.trim` is defined by well-founded recursion on byte positions and
  does not evaluate inside the kernel).
* `std::time::Instant` is modelled as a `Nat` count of whole seconds, so that
  `self.last_save.elapsed().as_secs()` at current time `now` is `now - last_save`.
* A Rust panic (`Vec::remove` / `Vec::swap_remove` on an out-of-range index,
  `expect` on a failed deserialization) is modelled as the `Except.error`
  branch of the result of the operation; the panic aborts before any mutation.
* The serde-JSON document is modelled by the `Json` inductive below; the
  derived `Serialize`/`Deserialize` impls (with their `#[serde(skip)]`
  fields) become `serializeLists` / `deserializeLists`.
-/

set_option autoImplicit false

/-- Rust `struct Item` (main.rs lines 8-23): an individual item on the todo
list. `begin_editing` and `editing` carry `#[serde(skip)]`. -/
structure Item where
  name : String
  is_done : Bool
  is_important : Bool
  begin_editing : Bool
  editing : Bool
deriving Repr, DecidableEq

/-- Constructor `Item::new` (lines 26-35): a fresh item with the given name and all flags false. -/
def Item.new (name : String) : Item :=
  { name := name
    is_done := false
    is_important := false
    begin_editing := false
    editing := false }

/-- Rust `struct List` (lines 38-57): a named list of todo items. `new_item_name`,
`begin_editing`, `editing` and `should_toggle` carry `#[serde(skip)]`.
Named `TodoList` here because `List` is the builtin Lean list type. -/
structure TodoList where
  name : String
  items : List Item
  new_item_name : String
  begin_editing : Bool
  editing : Bool
  should_toggle : Bool
deriving Repr, DecidableEq

/-- Constructor `List::new` (lines 60-70): a fresh todo list with the given name and no items. -/
def TodoList.new (name : String) : TodoList :=
  { name := name
    items := []
    new_item_name := ""
    begin_editing := false
    editing := false
    should_toggle := false }

/-- Rust `struct Todoish` (lines 74-83): the state of the app. `changed` is the dirty
flag; `last_save` is the `Instant` of the last save dispatch, in whole seconds. -/
structure Todoish where
  new_list_name : String
  lists : List TodoList
  changed : Bool
  last_save : Nat
deriving Repr, DecidableEq

/-- Rust `str::trim`: the string with leading and trailing whitespace removed,
modelled structurally over the character list. -/
def strTrim (s : String) : String :=
  String.mk
    (((((s.data.dropWhile Char.isWhitespace).reverse).dropWhile
        Char.isWhitespace).reverse))

/-- Replacement of the element at index `i` by `f` of it, identity when `i` is
out of range: the in-place mutation of `self.lists[li]` / `list.items[ii]`
performed inside the enumeration loops of `Todoish::update`. -/
def listModify {α : Type} (xs : List α) (i : Nat) (f : α → α) : List α :=
  match xs, i with
  | [], _ => []
  | x :: xs, 0 => f x :: xs
  | x :: xs, n + 1 => x :: listModify xs n f

/-- Branch of `Todoish::update`: new-list text box, Enter pressed (lines 166-174): the
buffer (holding `entered`) is trimmed on lost focus, then a `List::new` of the
trimmed buffer is pushed unconditionally, the buffer is cleared and `changed`
is set. There is no emptiness check on the trimmed name. -/
def addList (t : Todoish) (entered : String) : Todoish :=
  { t with
    lists := t.lists ++ [TodoList.new (strTrim entered)]
    new_list_name := ""
    changed := true }

/-- Branch of `Todoish::update`: per-list new-item text box, Enter pressed (lines
324-332): the per-list `new_item_name` buffer (holding `entered`) is trimmed on
lost focus, then an `Item::new` of the trimmed buffer is pushed
unconditionally and the buffer cleared. There is no emptiness check. -/
def TodoList.addItemEnter (l : TodoList) (entered : String) : TodoList :=
  { l with
    items := l.items ++ [Item.new (strTrim entered)]
    new_item_name := "" }

/-- The same item addition at board level: `self.changed = true` is set in the
same branch (line 331). -/
def addItem (t : Todoish) (li : Nat) (entered : String) : Todoish :=
  { t with
    lists := listModify t.lists li (fun l => l.addItemEnter entered)
    changed := true }

/-- Branch of `Todoish::update`: list-name text box loses focus while `list.editing`
(lines 219-224): the name already holds the box contents `entered` (the text
box edits `list.name` in place, line 212); on lost focus only
`self.changed = true` and `list.editing = false` are set — the name is NOT
trimmed. -/
def TodoList.commitEdit (l : TodoList) (entered : String) : TodoList :=
  { l with name := entered, editing := false }

/-- Branch of `Todoish::update`: item-name text box loses focus while `item.editing`
(lines 260-265): the name already holds the box contents `entered` (line 253);
on lost focus only `self.changed = true` and `item.editing = false` are set —
the name is NOT trimmed. -/
def Item.commitEdit (it : Item) (entered : String) : Item :=
  { it with name := entered, editing := false }

/-- List-name edit commit at board level, with `self.changed = true` (line 222). -/
def commitListEdit (t : Todoish) (li : Nat) (entered : String) : Todoish :=
  { t with
    lists := listModify t.lists li (fun l => l.commitEdit entered)
    changed := true }

/-- Item-name edit commit at board level, with `self.changed = true` (line 263). -/
def commitItemEdit (t : Todoish) (li ii : Nat) (entered : String) : Todoish :=
  { t with
    lists := listModify t.lists li
      (fun l => { l with items := listModify l.items ii (fun it => it.commitEdit entered) })
    changed := true }

/-- Failure of an indexed vector operation. -/
inductive OpError where
  | OutOfRange
deriving Repr, DecidableEq

/-- Rust `Vec::remove(i)`: panics when `i` is out of range (modelled as
`OpError.OutOfRange`, with the vector untouched since the panic precedes any
mutation); otherwise removes the element at `i`, shifting all later elements
left by one (a stable delete). Used on `list.items` at lines 312-314. -/
def vecRemove {α : Type} (xs : List α) (i : Nat) : Except OpError (List α) :=
  if i < xs.length then .ok (xs.take i ++ xs.drop (i + 1)) else .error .OutOfRange

/-- Rust `Vec::swap_remove(i)`: panics when `i` is out of range; otherwise
removes the element at `i` and puts the last element in its place (unstable
delete). Used on `self.lists` at lines 356-358. -/
def vecSwapRemove {α : Type} (xs : List α) (i : Nat) : Except OpError (List α) :=
  match xs.getLast? with
  | none => .error .OutOfRange
  | some last =>
    if i < xs.length then .ok ((xs.set i last).dropLast) else .error .OutOfRange

/-- Item deletion (lines 302-306 and 312-314): the context-menu click records
the index and sets `self.changed = true`; after the loop `list.items.remove(idx)`
runs — a stable delete chosen deliberately (the source comment says swap_remove
is avoided since the order of items might matter to the user). -/
def TodoList.removeItem (l : TodoList) (i : Nat) : Except OpError TodoList :=
  (vecRemove l.items i).map (fun items => { l with items := items })

/-- Item deletion at board level with the dirty flag (line 304). -/
def removeItemB (t : Todoish) (li ii : Nat) : Except OpError Todoish :=
  match t.lists[li]? with
  | none => .error .OutOfRange
  | some l =>
    (l.removeItem ii).map (fun l => { t with lists := t.lists.set li l, changed := true })

/-- List deletion (lines 341-345 and 356-358): the context-menu click records
the index and sets `self.changed = true`; after the loop
`self.lists.swap_remove(k)` runs — an unstable delete (the source comment says
the order of entire lists does not really matter). -/
def removeList (t : Todoish) (i : Nat) : Except OpError Todoish :=
  (vecSwapRemove t.lists i).map (fun lists => { t with lists := lists, changed := true })

/-- The autosave policy at the end of `Todoish::update` (lines 360-378): when
`changed` and at least 3 whole seconds have elapsed since `last_save`, a clone
of `lists` is handed to a spawned save thread, and `last_save`/`changed` are
updated immediately at dispatch — the function neither receives nor waits for
any completion signal from the write. Returns the new state and the
dispatched snapshot (`none` when no save is dispatched). -/
def tick (t : Todoish) (now : Nat) : Todoish × Option (List TodoList) :=
  if t.changed then
    if 3 ≤ now - t.last_save then
      ({ t with last_save := now, changed := false }, some t.lists)
    else (t, none)
  else (t, none)

/-- Fail-fast elementwise decoding of a sequence, as serde does for JSON
arrays: the first element that fails to decode fails the whole array. -/
def mapOption {α β : Type} (f : α → Option β) : List α → Option (List β)
  | [] => some []
  | x :: xs =>
    match f x, mapOption f xs with
    | some y, some ys => some (y :: ys)
    | _, _ => none

/-- Value tree of the serialized document (what serde-JSON reads and writes). -/
inductive Json where
  | str (s : String)
  | bool (b : Bool)
  | arr (xs : List Json)
  | obj (fields : List (String × Json))
deriving Repr

/-- Field lookup in a JSON object; `none` on any other value shape. -/
def Json.lookup : Json → String → Option Json
  | .obj fields, key => fields.lookup key
  | _, _ => none

/-- Keys of a JSON object (empty for any other value shape). -/
def Json.keys : Json → List String
  | .obj fields => fields.map Prod.fst
  | _ => []

/-- Derived `Serialize` for `Item`: the three persisted fields;
`begin_editing` and `editing` are `#[serde(skip)]` and never written. -/
def serializeItem (it : Item) : Json :=
  .obj [("name", .str it.name), ("is_done", .bool it.is_done),
        ("is_important", .bool it.is_important)]

/-- Derived `Serialize` for `List`: `name` and `items`; the four transient
fields are `#[serde(skip)]` and never written. -/
def serializeList (l : TodoList) : Json :=
  .obj [("name", .str l.name), ("items", .arr (l.items.map serializeItem))]

/-- Serialization of the whole `lists` vector, as written by the save thread
(`serde_json::to_string(&lists_copy)`, line 370). -/
def serializeLists (ls : List TodoList) : Json :=
  .arr (ls.map serializeList)

/-- Derived `Deserialize` for `Item`: requires the three persisted fields with
their types; the `#[serde(skip)]` fields take their `Default` values. -/
def deserializeItem (j : Json) : Option Item := do
  let .str name ← j.lookup "name" | none
  let .bool is_done ← j.lookup "is_done" | none
  let .bool is_important ← j.lookup "is_important" | none
  some { name := name
         is_done := is_done
         is_important := is_important
         begin_editing := false
         editing := false }

/-- Derived `Deserialize` for `List`: requires `name` and `items`; the
`#[serde(skip)]` fields take their `Default` values. -/
def deserializeList (j : Json) : Option TodoList := do
  let .str name ← j.lookup "name" | none
  let .arr itemsJ ← j.lookup "items" | none
  let items ← mapOption deserializeItem itemsJ
  some { name := name
         items := items
         new_item_name := ""
         begin_editing := false
         editing := false
         should_toggle := false }

/-- Deserialization of the whole document (`serde_json::from_slice`, line 103):
the document must be an array of lists. -/
def deserializeLists (j : Json) : Option (List TodoList) :=
  match j with
  | .arr listsJ => mapOption deserializeList listsJ
  | _ => none

/-- Transient fields at their `Default` values, persisted fields untouched:
what a round trip through the document restores an `Item` to. -/
def Item.resetTransient (it : Item) : Item :=
  { it with begin_editing := false, editing := false }

/-- Transient fields at their `Default` values, persisted fields untouched:
what a round trip through the document restores a `TodoList` to. -/
def TodoList.resetTransient (l : TodoList) : TodoList :=
  { l with
    items := l.items.map Item.resetTransient
    new_item_name := ""
    begin_editing := false
    editing := false
    should_toggle := false }

/-- Outcome of `fs::read` when it does not yield contents: the file may be
absent, or present but unreadable. `Todoish::new` never distinguishes the two
(`map_or` on line 101 discards the error). -/
inductive ReadError where
  | absent
  | unreadable
deriving Repr, DecidableEq

/-- Marker for process termination via `expect` (line 103: "JSON was
incorrectly formatted"). -/
inductive Fatal where
  | jsonIncorrectlyFormatted
deriving Repr, DecidableEq

/-- Startup load in `Todoish::new` (lines 97-105):
`fs::read(path).map_or(Vec::new(), |bytes| serde_json::from_slice(&bytes).expect(..))`.
The input is the outcome of `fs::read`: an error (of either kind) yields the
empty vector; successfully read contents that are not valid JSON (`none`) or
not the expected document shape panic; a well-formed document yields its lists. -/
def loadLists (readResult : Except ReadError (Option Json)) :
    Except Fatal (List TodoList) :=
  match readResult with
  | .error _ => .ok []
  | .ok contents =>
    match contents.bind deserializeLists with
    | some lists => .ok lists
    | none => .error .jsonIncorrectlyFormatted

/-- A single step of the item-level history on one list: the Enter-commit item
addition or the context-menu item deletion. -/
inductive ItemOp where
  | add (entered : String)
  | remove (i : Nat)
deriving Repr

/-- The items appended by a history, in order of addition. -/
def additions (ops : List ItemOp) : List Item :=
  ops.filterMap (fun op =>
    match op with
    | .add entered => some (Item.new (strTrim entered))
    | .remove _ => none)

/-- Run of an item-level history over the items of a list; a panicking removal
aborts the run. -/
def applyItemOps (items : List Item) : List ItemOp → Except OpError (List Item)
  | [] => .ok items
  | .add entered :: ops => applyItemOps (items ++ [Item.new (strTrim entered)]) ops
  | .remove i :: ops =>
    match vecRemove items i with
    | .ok items => applyItemOps items ops
    | .error e => .error e

/-- Concrete three-item list used to exercise the theorems below. -/
def sampleList : TodoList :=
  { name := "groceries"
    items := [Item.new "milk", Item.new "eggs", Item.new "bread"]
    new_item_name := ""
    begin_editing := false
    editing := false
    should_toggle := false }

/-- Concrete three-list board used to exercise the theorems below. -/
def sampleBoard : Todoish :=
  { new_list_name := ""
    lists := [TodoList.new "home", TodoList.new "work", TodoList.new "misc"]
    changed := false
    last_save := 0 }

/-- Concrete freshly-started board (empty, clean). -/
def initBoard : Todoish :=
  { new_list_name := ""
    lists := []
    changed := false
    last_save := 0 }

/-! Theorems. -/

/-- C1 counterexample: creating a list or an item whose name is whitespace-only
is NOT a no-op in the code — the trimmed (empty) name is pushed anyway, so the
list/item count grows. -/
theorem addList_addItem_blank_not_noop :
    ¬ ((addList initBoard "   ").lists = initBoard.lists ∧
       ((TodoList.new "groceries").addItemEnter "   ").items
         = (TodoList.new "groceries").items) := by
  intro h
  exact absurd h.1 (by decide)

/-- C1 (amended): adding a list or an item always appends exactly one entry
whose stored name is the trim of the entered text (an entry with empty name
when the trimmed text is empty), and marks the board dirty; there is no
emptiness check. -/
theorem addList_addItem_trims_and_appends (t : Todoish) (l : TodoList)
    (li : Nat) (entered : String) :
    (addList t entered).lists.length = t.lists.length + 1 ∧
    (addList t entered).lists.getLast? = some (TodoList.new (strTrim entered)) ∧
    (addList t entered).changed = true ∧
    (l.addItemEnter entered).items.length = l.items.length + 1 ∧
    (l.addItemEnter entered).items.getLast? = some (Item.new (strTrim entered)) ∧
    (addItem t li entered).changed = true := by
  refine ⟨?_, ?_, rfl, ?_, ?_, rfl⟩ <;>
    simp [addList, TodoList.addItemEnter]

/-- C2 counterexample: committing an edit session does NOT trim the entered
name — a name entered with surrounding whitespace is stored verbatim. -/
theorem commitEdit_does_not_trim :
    ¬ (((TodoList.new "groceries").commitEdit "  milk  ").name
         = strTrim "  milk  " ∧
       ((Item.new "eggs").commitEdit "  milk  ").name
         = strTrim "  milk  ") := by
  intro h
  exact absurd h.1 (by decide)

/-- C2 (amended): when an edit session on a list or item name ends, the stored
name equals the entered text exactly as entered (no trimming), the entity
returns to the viewing state (`editing = false`), and the owner is marked
dirty (`changed = true`). -/
theorem commitEdit_stores_entered_viewing_dirty (l : TodoList) (it : Item)
    (t : Todoish) (li ii : Nat) (entered : String) :
    (l.commitEdit entered).name = entered ∧
    (l.commitEdit entered).editing = false ∧
    (it.commitEdit entered).name = entered ∧
    (it.commitEdit entered).editing = false ∧
    (commitListEdit t li entered).changed = true ∧
    (commitItemEdit t li ii entered).changed = true :=
  ⟨rfl, rfl, rfl, rfl, rfl, rfl⟩

/-- C5: a frame with current time `now` dispatches a snapshot of the lists and
sets `changed = false`, `last_save = now` exactly when the board is dirty and
at least 3 seconds have elapsed since the last dispatch; otherwise the state
is untouched and nothing is dispatched. The state update happens at dispatch:
`tick` has no input describing the outcome of the background write. -/
theorem tick_dispatch_iff (t : Todoish) (now : Nat) :
    tick t now =
      if t.changed = true ∧ 3 ≤ now - t.last_save then
        ({ t with last_save := now, changed := false }, some t.lists)
      else (t, none) := by
  rcases t with ⟨nl, ls, ch, sv⟩
  cases ch
  · simp [tick]
  · by_cases h : 3 ≤ now - sv <;> simp [tick, h]

/-- C9: a frame on a clean board (`changed = false`) dispatches nothing and
leaves the whole state, in particular `last_save`, unchanged. -/
theorem tick_clean_is_noop (t : Todoish) (now : Nat) (h : t.changed = false) :
    tick t now = (t, none) := by
  simp [tick, h]

/-- Witness for C9 at a concrete clean board and time. -/
theorem tick_clean_is_noop_witness :
    initBoard.changed = false ∧ tick initBoard 100 = (initBoard, none) :=
  ⟨rfl, tick_clean_is_noop initBoard 100 rfl⟩

/-- C10: the startup load yields the empty collection on ANY read failure —
absent file and present-but-unreadable file alike (the code discards the read
error without inspecting it) — and on successfully read contents it is fatal
exactly when the contents fail to parse as the expected document shape. -/
theorem load_read_failure_empty (e : ReadError) (contents : Option Json) :
    loadLists (.error e) = .ok [] ∧
    loadLists (.ok contents) =
      (match contents.bind deserializeLists with
       | some lists => .ok lists
       | none => .error .jsonIncorrectlyFormatted) :=
  ⟨rfl, rfl⟩

/-- C7: an absent document file yields the empty collection (first run, not an
error), while successfully read contents that do not parse as the expected
document shape terminate the process (modelled as the fatal `expect`). -/
theorem load_absent_empty_unparseable_fatal (contents : Option Json) :
    loadLists (.error .absent) = .ok [] ∧
    (contents.bind deserializeLists = none →
      loadLists (.ok contents) = .error .jsonIncorrectlyFormatted) := by
  refine ⟨rfl, fun h => ?_⟩
  simp [loadLists, h]

/-- Witness for C7: a document holding a bare string is not the expected shape
and is fatal. -/
theorem load_absent_empty_unparseable_fatal_witness :
    (some (Json.str "oops") : Option Json).bind deserializeLists = none ∧
    loadLists (.ok (some (Json.str "oops"))) = .error .jsonIncorrectlyFormatted :=
  ⟨rfl, (load_absent_empty_unparseable_fatal (some (Json.str "oops"))).2 rfl⟩

/-- Helper: a successful `Vec::remove` yields a sublist of the original vector
(the remaining elements in their original relative order). -/
theorem vecRemove_ok_sublist {α : Type} {xs ys : List α} {i : Nat}
    (h : vecRemove xs i = .ok ys) : List.Sublist ys xs := by
  rw [vecRemove] at h
  by_cases hi : i < xs.length
  · rw [if_pos hi] at h
    injection h with h
    subst h
    rw [← List.eraseIdx_eq_take_drop_succ]
    exact List.eraseIdx_sublist xs i
  · rw [if_neg hi] at h
    exact Except.noConfusion h

/-- Helper: any successful run of an item-level history leaves a sublist of
the initial items followed by the added items in order of addition, so the
surviving items keep their relative order. -/
theorem applyItemOps_sublist :
    ∀ (ops : List ItemOp) (items r : List Item),
      applyItemOps items ops = .ok r → List.Sublist r (items ++ additions ops) := by
  intro ops
  induction ops with
  | nil =>
    intro items r h
    injection h with h
    subst h
    simp [additions]
  | cons op ops ih =>
    intro items r h
    cases op with
    | add entered =>
      rw [applyItemOps] at h
      have h2 := ih (items ++ [Item.new (strTrim entered)]) r h
      simpa [additions, List.append_assoc] using h2
    | remove i =>
      rw [applyItemOps] at h
      rcases h3 : vecRemove items i with e | items2
      · rw [h3] at h
        exact Except.noConfusion h
      · rw [h3] at h
        have h2 := ih items2 r h
        have h4 : List.Sublist (items2 ++ additions ops) (items ++ additions ops) :=
          (vecRemove_ok_sublist h3).append_right _
        simpa [additions] using h2.trans h4

/-- C3: removing an item at a valid index is a stable delete — the result is
the items before the index followed by the items after it, a sublist of the
original — and every successful sequence of item additions and removals
leaves the surviving items in their original relative order (a sublist of the
initial items followed by the additions in order). -/
theorem removeItem_stable :
    (∀ (l : TodoList) (i : Nat), i < l.items.length →
      ∃ l2, l.removeItem i = .ok l2 ∧
        l2.items = l.items.take i ++ l.items.drop (i + 1) ∧
        List.Sublist l2.items l.items ∧ l2.name = l.name) ∧
    (∀ (items : List Item) (ops : List ItemOp) (r : List Item),
      applyItemOps items ops = .ok r → List.Sublist r (items ++ additions ops)) := by
  constructor
  · intro l i hi
    refine ⟨{ l with items := l.items.take i ++ l.items.drop (i + 1) }, ?_, rfl, ?_, rfl⟩
    · simp [TodoList.removeItem, vecRemove, hi, Except.map]
    · rw [← List.eraseIdx_eq_take_drop_succ]
      exact List.eraseIdx_sublist _ _
  · exact fun items ops r h => applyItemOps_sublist ops items r h

/-- Witness for C3 on a concrete list and a concrete history. -/
theorem removeItem_stable_witness :
    (∃ l2, sampleList.removeItem 1 = .ok l2 ∧
      l2.items = sampleList.items.take 1 ++ sampleList.items.drop (1 + 1) ∧
      List.Sublist l2.items sampleList.items ∧ l2.name = sampleList.name) ∧
    List.Sublist [Item.new "second"]
      ([] ++ additions [ItemOp.add " first ", ItemOp.add "second", ItemOp.remove 0]) :=
  ⟨removeItem_stable.1 sampleList 1 (by decide),
   removeItem_stable.2 [] [ItemOp.add " first ", ItemOp.add "second", ItemOp.remove 0]
     [Item.new "second"] (by rfl)⟩

/-- C4: removing a list at a valid index is the unstable swap-with-last
delete: the board is marked dirty, the length drops by one, the removed
position now holds the formerly last list (when the removed position was not
itself the last), and every other surviving position is unchanged — so list
order is not preserved across deletions. -/
theorem removeList_swap (t : Todoish) (i : Nat) (hi : i < t.lists.length) :
    ∃ t2, removeList t i = .ok t2 ∧ t2.changed = true ∧
      t2.lists.length = t.lists.length - 1 ∧
      (i < t.lists.length - 1 → t2.lists[i]? = t.lists.getLast?) ∧
      (∀ j, j < t.lists.length - 1 → j ≠ i → t2.lists[j]? = t.lists[j]?) := by
  have hne : t.lists ≠ [] := by
    intro hnil
    rw [hnil] at hi
    simp at hi
  have hlast : t.lists.getLast? = some (t.lists.getLast hne) :=
    List.getLast?_eq_getLast _ hne
  refine ⟨{ t with
            lists := (t.lists.set i (t.lists.getLast hne)).dropLast
            changed := true }, ?_, rfl, ?_, ?_, ?_⟩
  · simp [removeList, vecSwapRemove, hlast, hi, Except.map]
  · simp
  · intro hilt
    rw [List.dropLast_eq_take, List.length_set,
      List.getElem?_take_of_lt (by omega), List.getElem?_set_self (by omega), hlast]
  · intro j hj hji
    rw [List.dropLast_eq_take, List.length_set,
      List.getElem?_take_of_lt (by omega), List.getElem?_set_ne (by omega)]

/-- Witness for C4 on a concrete three-list board. -/
theorem removeList_swap_witness :
    ∃ t2, removeList sampleBoard 0 = .ok t2 ∧ t2.changed = true ∧
      t2.lists.length = sampleBoard.lists.length - 1 ∧
      (0 < sampleBoard.lists.length - 1 → t2.lists[0]? = sampleBoard.lists.getLast?) ∧
      (∀ j, j < sampleBoard.lists.length - 1 → j ≠ 0 →
        t2.lists[j]? = sampleBoard.lists[j]?) :=
  removeList_swap sampleBoard 0 (by decide)

/-- C8: removing an item at an index at or beyond the item count fails with
`OutOfRange` (the `Vec::remove` panic) and produces no modified list — the
failure happens before any mutation, so the items, their order, the name and
the flags are untouched. -/
theorem removeItem_out_of_range (l : TodoList) (i : Nat)
    (h : l.items.length ≤ i) : l.removeItem i = .error .OutOfRange := by
  have hn : ¬ i < l.items.length := Nat.not_lt.mpr h
  simp [TodoList.removeItem, vecRemove, hn, Except.map]

/-- Witness for C8: the spec scenario, index 5 on a list with 3 items. -/
theorem removeItem_out_of_range_witness :
    sampleList.items.length ≤ 5 ∧ sampleList.removeItem 5 = .error .OutOfRange :=
  ⟨by decide, removeItem_out_of_range sampleList 5 (by decide)⟩

/-- Helper: deserializing a serialized item restores the persisted fields and
defaults the transient ones. -/
theorem deserializeItem_serializeItem (it : Item) :
    deserializeItem (serializeItem it) = some it.resetTransient := rfl

/-- Helper: elementwise round trip for the array of serialized items. -/
theorem mapOption_deserializeItem (items : List Item) :
    mapOption deserializeItem (items.map serializeItem)
      = some (items.map Item.resetTransient) := by
  induction items with
  | nil => rfl
  | cons it items ih => simp [mapOption, deserializeItem_serializeItem, ih]

/-- Helper: deserializing a serialized list restores the persisted fields and
defaults the transient ones. -/
theorem deserializeList_serializeList (l : TodoList) :
    deserializeList (serializeList l) = some l.resetTransient := by
  simp [deserializeList, serializeList, Json.lookup, List.lookup,
    mapOption_deserializeItem, TodoList.resetTransient]

/-- Helper: elementwise round trip for the array of serialized lists. -/
theorem mapOption_deserializeList (ls : List TodoList) :
    mapOption deserializeList (ls.map serializeList)
      = some (ls.map TodoList.resetTransient) := by
  induction ls with
  | nil => rfl
  | cons l ls ih => simp [mapOption, deserializeList_serializeList, ih]

/-- C6: a save/load round trip of any collection of lists restores every
persisted field exactly (list name; item name, `is_done`, `is_important`) and
resets the transient fields to their defaults, and the serialized document
contains only the persisted keys — no transient field ever appears in it. -/
theorem save_load_roundtrip (ls : List TodoList) :
    deserializeLists (serializeLists ls) = some (ls.map TodoList.resetTransient) ∧
    (∀ l : TodoList, (serializeList l).keys = ["name", "items"]) ∧
    (∀ it : Item, (serializeItem it).keys = ["name", "is_done", "is_important"]) := by
  refine ⟨?_, fun l => rfl, fun it => rfl⟩
  simp [deserializeLists, serializeLists, mapOption_deserializeList]
